import Mathlib

/-!
Shallow embedding of the zeoran structure writer (src/output.cpp, with the
globals of src/global.h / src/globals.cpp).

Modelling conventions:
- `double` values (coordinates, charges, cell parameters) are embedded as `ℚ`.
- The C `atom` struct field `at` is a Lean keyword, so it is spelled `at_`.
- Stream output is modelled as a list of lines, each a list of cells.  A cell
  records what was inserted into the stream: a string, an integer, or a
  floating-point number together with the float-format state (floatfield and
  precision) of the stream at the moment of insertion and the active `setw`
  field width.  Integer inserters are not affected by `setprecision`/`fixed`
  in C++, so the `alcount` insert is an `int` cell without format state.
- `exit(1)` after a failed `fout.open` is modelled by returning
  `Except.error` carrying the exit code and the `cerr` diagnostic, so the
  error path produces no document and does not return a document to a caller.
- The wall-clock date string produced by `strftime` and the environment lookup
  done by `getenv` are inputs of the model (`date`, `env`).
-/

/-- The C `atom` struct of src/global.h: `char id[5], at[5]; double x, y, z, q;`. -/
structure Atom where
  id : String
  at_ : String
  x : ℚ
  y : ℚ
  z : ℚ
  q : ℚ
  deriving DecidableEq, Repr

/-- The process-wide globals of src/globals.cpp read by the writer. -/
structure Globals where
  Natoms : Int
  Tatoms : Int
  a : ℚ
  b : ℚ
  c : ℚ
  alpha : ℚ
  beta : ℚ
  gama : ℚ
  setting : String
  deriving DecidableEq, Repr

/-- C++ stream floatfield state. -/
inductive FloatField where
  | defaultfloat
  | fixed
  | scientific
  deriving DecidableEq, Repr

/-- Float-format state of an output stream: floatfield and precision. -/
structure FmtSt where
  ff : FloatField
  prec : Nat
  deriving DecidableEq, Repr

/-- Format state of a freshly opened `ofstream`: defaultfloat, precision 6. -/
def streamInit : FmtSt := ⟨FloatField.defaultfloat, 6⟩

/-- `fout << setprecision(n)`. -/
def setprecision (n : Nat) (st : FmtSt) : FmtSt := ⟨st.ff, n⟩

/-- `fout << fixed`. -/
def setFixedFF (st : FmtSt) : FmtSt := ⟨FloatField.fixed, st.prec⟩

/-- The stream state after line 27 of src/output.cpp:
`fout << setprecision(3) << fixed;`.  No later statement changes it. -/
def foutState : FmtSt := setFixedFF (setprecision 3 streamInit)

/-- One insertion into the output stream.  `str`/`int`/`num` carry the active
`setw` width (0 = default); `num` additionally carries the float-format state
in effect at the moment of insertion. -/
inductive Cell where
  | str (s : String) (w : Nat)
  | int (n : Int) (w : Nat)
  | num (q : ℚ) (f : FmtSt) (w : Nat)
  deriving DecidableEq, Repr

/-- One output line (the inserts between two `endl`). -/
abbrev Line := List Cell

/-- One atom row of the `_atom_site` loop: either a substituted aluminum row
(`"Al" << alcount << "        Al     " << x ...`) or a plain row
(`at << setw(10) << id << setw(10) << x ...`). -/
inductive Row where
  | al (alcount : Nat) (x y z q : ℚ)
  | plain (at_ id : String) (x y z q : ℚ)
  deriving DecidableEq, Repr

/-- The inner loop of src/output.cpp lines 84-92: scan `Als` left to right and
stop at the first element equal to `Tat` (the `ctl` flag break). -/
def scanAls : List Int → Int → Bool
  | [], _ => false
  | v :: rest, tat => if tat == v then true else scanAls rest tat

/-- The atom loop of src/output.cpp lines 80-100, carrying the running
zero-based Si counter `Tat` (incremented before the scan, so it is passed in
as the value before the current atom) and the 1-based substitution counter
`alcount`. -/
def emitRows : List Atom → List Int → Int → Nat → List Row
  | [], _, _, _ => []
  | x :: rest, als, tat, alcount =>
    if x.id == "Si" then
      if scanAls als (tat + 1) then
        Row.al alcount x.x x.y x.z x.q :: emitRows rest als (tat + 1) (alcount + 1)
      else
        Row.plain x.at_ x.id x.x x.y x.z x.q :: emitRows rest als (tat + 1) alcount
    else
      Row.plain x.at_ x.id x.x x.y x.z x.q :: emitRows rest als tat alcount

/-- The rows of the atom-site loop: `Tat` starts at -1, `alcount` at 1. -/
def atomRows (l : List Atom) (als : List Int) : List Row :=
  emitRows l als (-1) 1

/-- Number of Si-typed atoms in a list (`strcmp(id,"Si")==0`). -/
def siCount (l : List Atom) : Nat :=
  (l.filter (fun x => x.id == "Si")).length

/-- Number of substitutions emitted while the loop runs over `l` with the Si
counter starting at `tat`: how much `alcount` grows. -/
def subsIn : List Atom → List Int → Int → Nat
  | [], _, _ => 0
  | x :: rest, als, tat =>
    if x.id == "Si" then
      (if scanAls als (tat + 1) then 1 else 0) + subsIn rest als (tat + 1)
    else
      subsIn rest als tat

/-- Username lookup of src/output.cpp lines 38-44: `getenv("USER")`, falling
back to `getenv("USERNAME")`, falling back to `"unknown_user"`. -/
def lookupUser (env : String → Option String) : String :=
  match env "USER" with
  | some u => u
  | none =>
    match env "USERNAME" with
    | some u => u
    | none => "unknown_user"

/-- Output path of line 19: `out_name + "/" + name_zeo + "_" + name_alg + "_" +
to_string(struc) + ".cif"`. -/
def mkFname (out_name name_zeo name_alg : String) (struc : Int) : String :=
  out_name ++ "/" ++ name_zeo ++ "_" ++ name_alg ++ "_" ++ toString struc ++ ".cif"

/-- Header block of the CIF document, lines 46-73 of src/output.cpp. -/
def headerLines (g : Globals) (name_zeo user date : String) : List Line :=
  [ [Cell.str ("data_" ++ name_zeo) 0],
    [],
    [Cell.str "_audit_creation_method RASPA-1.0" 0],
    [Cell.str "_audit_creation_date " 0, Cell.str date 0],
    [Cell.str "_audit_author_name \x27" 0, Cell.str user 0, Cell.str "\x27" 0],
    [],
    [Cell.str "_cell_length_a    " 0, Cell.num g.a foutState 0],
    [Cell.str "_cell_length_b    " 0, Cell.num g.b foutState 0],
    [Cell.str "_cell_length_c    " 0, Cell.num g.c foutState 0],
    [Cell.str "_cell_angle_alpha " 0, Cell.num g.alpha foutState 0],
    [Cell.str "_cell_angle_beta  " 0, Cell.num g.beta foutState 0],
    [Cell.str "_cell_angle_gamma " 0, Cell.num g.gama foutState 0],
    [Cell.str "_cell_volume      " 0, Cell.num (g.a * g.b * g.c) foutState 0],
    [],
    [Cell.str "_symmetry_cell_setting          " 0, Cell.str g.setting 0],
    [Cell.str "_symmetry_space_group_name_Hall \x27P 1\x27" 0],
    [Cell.str "_symmetry_space_group_name_H-M  \x27P 1\x27" 0],
    [Cell.str "_symmetry_Int_Tables_number     1" 0],
    [Cell.str "_symmetry_equiv_pos_as_xyz \x27x,y,z\x27" 0],
    [],
    [Cell.str "loop_" 0],
    [Cell.str "_atom_site_label" 0],
    [Cell.str "_atom_site_type_symbol" 0],
    [Cell.str "_atom_site_fract_x" 0],
    [Cell.str "_atom_site_fract_y" 0],
    [Cell.str "_atom_site_fract_z" 0],
    [Cell.str "_atom_site_charge" 0] ]

/-- Render one atom row as stream inserts, with the float-format state `st`
in effect (lines 87 and 95/97 of src/output.cpp). -/
def rowLine (st : FmtSt) : Row → Line
  | Row.al n x y z q =>
    [Cell.str "Al" 0, Cell.int n 0, Cell.str "        Al     " 0,
     Cell.num x st 0, Cell.num y st 10, Cell.num z st 10, Cell.num q st 10]
  | Row.plain at_ id x y z q =>
    [Cell.str at_ 0, Cell.str id 10,
     Cell.num x st 10, Cell.num y st 10, Cell.num z st 10, Cell.num q st 10]

/-- The whole CIF document written to `fout` on the success path.  The atom
loop runs for `i = 0 .. Natoms-1`, i.e. over the first `Natoms` entries of the
array (`toNat`: a negative `Natoms` runs the loop zero times). -/
def printDoc (g : Globals) (list : List Atom) (als : List Int)
    (name_zeo : String) (env : String → Option String) (date : String) : List Line :=
  headerLines g name_zeo (lookupUser env) date ++
    (atomRows (list.take g.Natoms.toNat) als).map (rowLine foutState)

/-- ingredients of a process exit: the exit code passed to `exit` and the
diagnostic printed to `cerr` before it. -/
structure ExitCall where
  code : Nat
  msg : String
  deriving DecidableEq, Repr

/-- `print_structure` of src/output.cpp.  `openOk` models whether
`fout.open(fname)` succeeds for a given path; `env` models `getenv`; `date`
models the `strftime`-formatted local date.  The failure path returns the
`ExitCall` of `exit(1)`; the success path returns the document. -/
def print_structure (g : Globals) (list : List Atom) (als : List Int)
    (struc : Int) (name_zeo name_alg out_name : String)
    (openOk : String → Bool) (env : String → Option String) (date : String) :
    Except ExitCall (List Line) :=
  let fname := mkFname out_name name_zeo name_alg struc
  if openOk fname then
    Except.ok (printDoc g list als name_zeo env date)
  else
    Except.error ⟨1, "unable to open file " ++ fname ++ " for writing"⟩

/-- Expected row for the atom `x` at position `i` of the array, where `p` is
the prefix of the array before `i`, given the loop entered the array with Si
counter `tat` and substitution counter `al`. -/
def rowAt (als : List Int) (tat : Int) (al : Nat) (p : List Atom) (x : Atom) : Row :=
  if x.id == "Si" then
    if scanAls als (tat + 1 + (siCount p : Int)) then
      Row.al (al + subsIn p als tat) x.x x.y x.z x.q
    else
      Row.plain x.at_ x.id x.x x.y x.z x.q
  else
    Row.plain x.at_ x.id x.x x.y x.z x.q

/-- Zero-based index of the atom at position `i` among the Si-typed atoms:
the value the loop counter `Tat` has when the loop reaches a Si atom at
position `i`. -/
def siRank (l : List Atom) (i : Nat) : Nat :=
  siCount (l.take i)

theorem scanAls_cons (v : Int) (rest : List Int) (t : Int) :
    scanAls (v :: rest) t = ((t == v) || scanAls rest t) := by
  cases h : t == v <;> simp [scanAls, h]

theorem scanAls_append (A B : List Int) (t : Int) :
    scanAls (A ++ B) t = (scanAls A t || scanAls B t) := by
  induction A with
  | nil => simp [scanAls]
  | cons v rest ih =>
    rw [List.cons_append, scanAls_cons, scanAls_cons, ih, Bool.or_assoc]

theorem emitRows_length (l : List Atom) (als : List Int) (tat : Int) (al : Nat) :
    (emitRows l als tat al).length = l.length := by
  induction l generalizing tat al with
  | nil => rfl
  | cons x rest ih =>
    simp only [emitRows]
    split
    · split <;> simp [ih]
    · simp [ih]

theorem atomRows_length (l : List Atom) (als : List Int) :
    (atomRows l als).length = l.length :=
  emitRows_length l als (-1) 1

theorem siCount_cons (x : Atom) (l : List Atom) :
    siCount (x :: l) = (if x.id == "Si" then 1 else 0) + siCount l := by
  simp only [siCount, List.filter_cons]
  split <;> simp [Nat.add_comm]

theorem rowAt_cons (als : List Int) (tat : Int) (al : Nat) (b : Atom)
    (p : List Atom) (x : Atom) :
    rowAt als tat al (b :: p) x =
      if b.id == "Si" then
        if scanAls als (tat + 1) then rowAt als (tat + 1) (al + 1) p x
        else rowAt als (tat + 1) al p x
      else rowAt als tat al p x := by
  by_cases hb : (b.id == "Si") = true
  · have h1 : tat + 1 + (siCount (b :: p) : Int) = tat + 1 + 1 + (siCount p : Int) := by
      rw [siCount_cons, if_pos hb]
      push_cast
      ring
    by_cases hm : scanAls als (tat + 1) = true
    · have h2 : al + subsIn (b :: p) als tat = al + 1 + subsIn p als (tat + 1) := by
        simp only [subsIn]
        rw [if_pos hb, if_pos hm]
        omega
      rw [if_pos hb, if_pos hm]
      simp only [rowAt, h1, h2]
    · have h2 : al + subsIn (b :: p) als tat = al + subsIn p als (tat + 1) := by
        simp only [subsIn]
        rw [if_pos hb, if_neg hm]
        omega
      rw [if_pos hb, if_neg hm]
      simp only [rowAt, h1, h2]
  · have h1 : tat + 1 + (siCount (b :: p) : Int) = tat + 1 + (siCount p : Int) := by
      rw [siCount_cons, if_neg hb]
      push_cast
      ring
    have h2 : al + subsIn (b :: p) als tat = al + subsIn p als tat := by
      simp only [subsIn]
      rw [if_neg hb]
    rw [if_neg hb]
    simp only [rowAt, h1, h2]

theorem emitRows_get? (l : List Atom) (als : List Int) (tat : Int) (al : Nat)
    (i : Nat) (x : Atom) (hx : l.get? i = some x) :
    (emitRows l als tat al).get? i = some (rowAt als tat al (l.take i) x) := by
  induction l generalizing tat al i with
  | nil => simp at hx
  | cons b rest ih =>
    cases i with
    | zero =>
      have hbx : b = x := by simpa using hx
      subst hbx
      have h0 : rowAt als tat al ((b :: rest).take 0) b =
          if b.id == "Si" then
            if scanAls als (tat + 1) then Row.al al b.x b.y b.z b.q
            else Row.plain b.at_ b.id b.x b.y b.z b.q
          else Row.plain b.at_ b.id b.x b.y b.z b.q := by
        simp [rowAt, siCount, subsIn]
      rw [h0]
      simp only [emitRows]
      split
      · split <;> rfl
      · rfl
    | succ i =>
      have hx' : rest.get? i = some x := by simpa using hx
      have htake : (b :: rest).take (i + 1) = b :: rest.take i := rfl
      rw [htake, rowAt_cons]
      simp only [emitRows]
      by_cases hb : (b.id == "Si") = true
      · by_cases hm : scanAls als (tat + 1) = true
        · simp only [hb, if_true, hm]
          exact ih (tat + 1) (al + 1) i hx'
        · simp only [hb, if_true, hm, Bool.false_eq_true, if_false]
          exact ih (tat + 1) al i hx'
      · simp only [hb, Bool.false_eq_true, if_false]
        exact ih tat al i hx'

theorem atomRows_get? (l : List Atom) (als : List Int) (i : Nat) (x : Atom)
    (hx : l.get? i = some x) :
    (atomRows l als).get? i = some (rowAt als (-1) 1 (l.take i) x) :=
  emitRows_get? l als (-1) 1 i x hx

theorem subsIn_range (p : List Atom) (als : List Int) (tat : Int) :
    subsIn p als tat =
      ((List.range (siCount p)).filter
        (fun k : Nat => scanAls als (tat + 1 + (k : Int)))).length := by
  induction p generalizing tat with
  | nil => rfl
  | cons b rest ih =>
    by_cases hb : (b.id == "Si") = true
    · have hsc : siCount (b :: rest) = siCount rest + 1 := by
        rw [siCount_cons, if_pos hb]
        omega
      rw [hsc]
      simp only [subsIn]
      rw [if_pos hb, ih (tat + 1), List.range_succ_eq_map, List.filter_cons,
        List.filter_map]
      have hf : ((fun k : Nat => scanAls als (tat + 1 + (k : Int))) ∘ Nat.succ) =
          (fun k : Nat => scanAls als (tat + 1 + 1 + (k : Int))) := by
        funext k
        simp only [Function.comp]
        congr 1
        push_cast
        ring
      have h00 : tat + 1 + ((0 : Nat) : Int) = tat + 1 := by
        push_cast
        ring
      by_cases h0 : scanAls als (tat + 1) = true
      · rw [if_pos h0, if_pos (show scanAls als (tat + 1 + ((0 : Nat) : Int)) = true by
          rw [h00]; exact h0), hf, List.length_cons, List.length_map]
        omega
      · rw [if_neg h0, if_neg (show ¬scanAls als (tat + 1 + ((0 : Nat) : Int)) = true by
          rw [h00]; exact h0), hf, List.length_map]
        omega
    · have hsc : siCount (b :: rest) = siCount rest := by
        rw [siCount_cons, if_neg hb]
        omega
      rw [hsc]
      simp only [subsIn]
      rw [if_neg hb, ih tat]

theorem siCount_take_le (l : List Atom) (i : Nat) : siCount (l.take i) ≤ siCount l :=
  List.Sublist.length_le (List.Sublist.filter _ (List.take_sublist i l))

theorem siCount_take_lt (l : List Atom) (i : Nat) (x : Atom)
    (hx : l.get? i = some x) (hsi : (x.id == "Si") = true) :
    siCount (l.take i) < siCount l := by
  have hgl : l[i]? = some x := by
    rw [← List.get?_eq_getElem?]
    exact hx
  have hts : l.take (i + 1) = l.take i ++ [x] := by
    rw [List.take_succ, hgl]
    rfl
  have h1 : siCount (l.take (i + 1)) = siCount (l.take i) + 1 := by
    rw [hts]
    simp [siCount, List.filter_append, List.filter_cons, hsi]
  have h2 := siCount_take_le l (i + 1)
  omega

theorem atomRows_congr (l : List Atom) (A1 A2 : List Int)
    (h : ∀ t : Int, 0 ≤ t → t < (siCount l : Int) → scanAls A1 t = scanAls A2 t) :
    atomRows l A1 = atomRows l A2 := by
  apply List.ext_get?
  intro n
  by_cases hn : n < l.length
  · obtain ⟨x, hx⟩ : ∃ x, l.get? n = some x := by
      rw [List.get?_eq_getElem?]
      exact ⟨l[n], List.getElem?_eq_getElem hn⟩
    rw [atomRows_get? l A1 n x hx, atomRows_get? l A2 n x hx]
    congr 1
    unfold rowAt
    by_cases hsi : (x.id == "Si") = true
    · rw [if_pos hsi, if_pos hsi]
      have hlt : siCount (l.take n) < siCount l := siCount_take_lt l n x hx hsi
      have he : (-1 : Int) + 1 + ((siCount (l.take n) : Nat) : Int) =
          ((siCount (l.take n) : Nat) : Int) := by
        push_cast
        ring
      rw [he]
      have hsc : scanAls A1 ((siCount (l.take n) : Nat) : Int) =
          scanAls A2 ((siCount (l.take n) : Nat) : Int) := by
        apply h
        · exact Int.natCast_nonneg _
        · exact_mod_cast hlt
      have hsub : subsIn (l.take n) A1 (-1) = subsIn (l.take n) A2 (-1) := by
        rw [subsIn_range, subsIn_range]
        congr 1
        apply List.filter_congr
        intro k hk
        have hkr : k < siCount (l.take n) := List.mem_range.mp hk
        apply h
        · omega
        · have : (k : Int) < (siCount l : Int) := by exact_mod_cast Nat.lt_of_lt_of_le hkr (Nat.le_of_lt hlt)
          omega
      rw [hsc, hsub]
    · rw [if_neg hsi, if_neg hsi]
  · have h1 : (atomRows l A1).get? n = none := by
      rw [List.get?_eq_getElem?]
      rw [List.getElem?_eq_none]
      rw [atomRows_length]
      omega
    have h2 : (atomRows l A2).get? n = none := by
      rw [List.get?_eq_getElem?]
      rw [List.getElem?_eq_none]
      rw [atomRows_length]
      omega
    rw [h1, h2]

theorem emitRows_nil_als (l : List Atom) (tat : Int) (al : Nat) :
    emitRows l [] tat al = l.map (fun x => Row.plain x.at_ x.id x.x x.y x.z x.q) := by
  induction l generalizing tat al with
  | nil => rfl
  | cons b rest ih =>
    simp only [emitRows, scanAls, Bool.false_eq_true, if_false, List.map_cons]
    split <;> rw [ih]

theorem atomRows_nil_als (l : List Atom) :
    atomRows l [] = l.map (fun x => Row.plain x.at_ x.id x.x x.y x.z x.q) :=
  emitRows_nil_als l (-1) 1

/-- C5: the `_cell_volume` field written by `print_structure` always equals
the simple product `a*b*c` of the three cell lengths, for all values of the
angles `alpha`, `beta`, `gama`: no trigonometric correction is applied. -/
theorem c5_cell_volume_simple_product (g : Globals) (list : List Atom)
    (als : List Int) (name_zeo : String) (env : String → Option String)
    (date : String) :
    (printDoc g list als name_zeo env date).get? 12 =
      some [Cell.str "_cell_volume      " 0, Cell.num (g.a * g.b * g.c) foutState 0] :=
  rfl

/-- C9: two invocations with identical atom array, Als, names, globals and
environment produce identical documents except for the
`_audit_creation_date` line (line index 3), which carries each run's own
wall-clock date. -/
theorem c9_identical_inputs_differ_only_in_date (g : Globals) (list : List Atom)
    (als : List Int) (name_zeo : String) (env : String → Option String)
    (d1 d2 : String) :
    (printDoc g list als name_zeo env d1).eraseIdx 3 =
        (printDoc g list als name_zeo env d2).eraseIdx 3 ∧
      (printDoc g list als name_zeo env d1).get? 3 =
        some [Cell.str "_audit_creation_date " 0, Cell.str d1 0] :=
  ⟨rfl, rfl⟩

/-- C6: when opening `<out_name>/<name_zeo>_<name_alg>_<struc>.cif` fails,
`print_structure` terminates the process with exit status 1 after a `cerr`
diagnostic containing the attempted filename, and produces no document. -/
theorem c6_open_failure_exit_one (g : Globals) (list : List Atom)
    (als : List Int) (struc : Int) (name_zeo name_alg out_name : String)
    (openOk : String → Bool) (env : String → Option String) (date : String)
    (h : openOk (mkFname out_name name_zeo name_alg struc) = false) :
    print_structure g list als struc name_zeo name_alg out_name openOk env date =
      Except.error ⟨1, "unable to open file " ++
        mkFname out_name name_zeo name_alg struc ++ " for writing"⟩ := by
  simp only [print_structure, h, Bool.false_eq_true, if_false]

/-- Witness for C6 at concrete inputs where every open fails. -/
theorem c6_open_failure_exit_one_witness :
    print_structure ⟨3, 2, 1, 1, 1, 90, 90, 90, "cubic"⟩ [] [] 0 "MFI" "merw"
        "missing_dir" (fun _ => false) (fun _ => none) "2026-10-11" =
      Except.error ⟨1, "unable to open file " ++
        mkFname "missing_dir" "MFI" "merw" 0 ++ " for writing"⟩ :=
  c6_open_failure_exit_one ⟨3, 2, 1, 1, 1, 90, 90, 90, "cubic"⟩ [] [] 0 "MFI"
    "merw" "missing_dir" (fun _ => false) (fun _ => none) "2026-10-11" rfl

/-- C7: with neither USER nor USERNAME set in the environment, the
`_audit_author_name` line (line index 4) carries the placeholder
`unknown_user`, no error occurs, and every other line of the document is
independent of the environment. -/
theorem c7_missing_username_placeholder (g : Globals) (list : List Atom)
    (als : List Int) (name_zeo : String) (env : String → Option String)
    (date : String) (hU : env "USER" = none) (hV : env "USERNAME" = none) :
    (printDoc g list als name_zeo env date).get? 4 =
        some [Cell.str "_audit_author_name \x27" 0, Cell.str "unknown_user" 0,
          Cell.str "\x27" 0] ∧
      ∀ env2 : String → Option String,
        (printDoc g list als name_zeo env date).eraseIdx 4 =
          (printDoc g list als name_zeo env2 date).eraseIdx 4 := by
  constructor
  · have hu : lookupUser env = "unknown_user" := by
      unfold lookupUser
      rw [hU, hV]
    have h4 : (printDoc g list als name_zeo env date).get? 4 =
        some [Cell.str "_audit_author_name \x27" 0, Cell.str (lookupUser env) 0,
          Cell.str "\x27" 0] := rfl
    rw [h4, hu]
  · intro env2
    rfl

/-- Witness for C7 at concrete inputs with an empty environment. -/
theorem c7_missing_username_placeholder_witness :
    (printDoc ⟨1, 1, 1, 1, 1, 90, 90, 90, "cubic"⟩ [] [] "MFI" (fun _ => none)
        "2026-10-11").get? 4 =
        some [Cell.str "_audit_author_name \x27" 0, Cell.str "unknown_user" 0,
          Cell.str "\x27" 0] ∧
      ∀ env2 : String → Option String,
        (printDoc ⟨1, 1, 1, 1, 1, 90, 90, 90, "cubic"⟩ [] [] "MFI"
            (fun _ => none) "2026-10-11").eraseIdx 4 =
          (printDoc ⟨1, 1, 1, 1, 1, 90, 90, 90, "cubic"⟩ [] [] "MFI" env2
            "2026-10-11").eraseIdx 4 :=
  c7_missing_username_placeholder ⟨1, 1, 1, 1, 1, 90, 90, 90, "cubic"⟩ [] []
    "MFI" (fun _ => none) "2026-10-11" rfl rfl

/-- C2: with `Natoms` equal to the array length and an empty `Als`, the
document is the header followed by exactly one row per atom, in array order,
each row carrying the original `at`/`id`/`x`/`y`/`z`/`q` unchanged. -/
theorem c2_empty_als_identity_rows (g : Globals) (list : List Atom)
    (name_zeo : String) (env : String → Option String) (date : String)
    (hN : g.Natoms = (list.length : Int)) :
    printDoc g list [] name_zeo env date =
      headerLines g name_zeo (lookupUser env) date ++
        list.map (fun x => rowLine foutState (Row.plain x.at_ x.id x.x x.y x.z x.q)) := by
  unfold printDoc
  rw [hN, Int.toNat_natCast, List.take_length, atomRows_nil_als, List.map_map]
  rfl

/-- Witness for C2 at a concrete two-atom array. -/
theorem c2_empty_als_identity_rows_witness :
    printDoc ⟨2, 1, 1, 1, 1, 90, 90, 90, "cubic"⟩
        [⟨"Si", "T1", 1, 2, 3, 4⟩, ⟨"O", "O1", 5, 6, 7, 8⟩] [] "MFI"
        (fun _ => none) "2026-10-11" =
      headerLines ⟨2, 1, 1, 1, 1, 90, 90, 90, "cubic"⟩ "MFI"
          (lookupUser fun _ => none) "2026-10-11" ++
        ([⟨"Si", "T1", 1, 2, 3, 4⟩, ⟨"O", "O1", 5, 6, 7, 8⟩] : List Atom).map
          (fun x => rowLine foutState (Row.plain x.at_ x.id x.x x.y x.z x.q)) :=
  c2_empty_als_identity_rows ⟨2, 1, 1, 1, 1, 90, 90, 90, "cubic"⟩
    [⟨"Si", "T1", 1, 2, 3, 4⟩, ⟨"O", "O1", 5, 6, 7, 8⟩] "MFI"
    (fun _ => none) "2026-10-11" rfl

/-- C3: every atom is emitted as exactly one row whatever `Als` holds, and a
duplicate occurrence of a value in `Als` is inert: the inner scan stops at
the first match, so deleting a later duplicate leaves the rows unchanged. -/
theorem c3_first_match_wins (l : List Atom) (A1 A2 A3 : List Int) (v : Int) :
    (atomRows l (A1 ++ v :: A2 ++ v :: A3)).length = l.length ∧
      atomRows l (A1 ++ v :: A2 ++ v :: A3) = atomRows l (A1 ++ v :: A2 ++ A3) := by
  refine ⟨atomRows_length _ _, atomRows_congr _ _ _ ?_⟩
  intro t _ _
  simp only [scanAls_append, scanAls_cons]
  cases h1 : scanAls A1 t <;> cases h2 : t == v <;> cases h3 : scanAls A2 t <;>
    cases h4 : scanAls A3 t <;> rfl

/-- C4: an `Als` entry that is negative or at least the number of Si-typed
atoms never matches any atom: removing it leaves the whole document
unchanged, and no error results. -/
theorem c4_out_of_range_index_inert (g : Globals) (list : List Atom)
    (A1 A2 : List Int) (v : Int) (name_zeo : String)
    (env : String → Option String) (date : String)
    (hv : v < 0 ∨ (siCount list : Int) ≤ v) :
    printDoc g list (A1 ++ v :: A2) name_zeo env date =
      printDoc g list (A1 ++ A2) name_zeo env date := by
  unfold printDoc
  congr 1
  congr 1
  apply atomRows_congr
  intro t ht0 htl
  have hle : (siCount (list.take g.Natoms.toNat) : Int) ≤ (siCount list : Int) := by
    exact_mod_cast siCount_take_le list g.Natoms.toNat
  have hne : (t == v) = false := by
    rw [beq_eq_false_iff_ne]
    omega
  simp only [scanAls_append, scanAls_cons, hne, Bool.false_or]

/-- Witness for C4: index 5 in a one-Si-atom array is inert. -/
theorem c4_out_of_range_index_inert_witness :
    printDoc ⟨1, 1, 1, 1, 1, 90, 90, 90, "cubic"⟩ [⟨"Si", "T1", 1, 2, 3, 4⟩]
        ([] ++ 5 :: [0]) "MFI" (fun _ => none) "2026-10-11" =
      printDoc ⟨1, 1, 1, 1, 1, 90, 90, 90, "cubic"⟩ [⟨"Si", "T1", 1, 2, 3, 4⟩]
        ([] ++ [0]) "MFI" (fun _ => none) "2026-10-11" :=
  c4_out_of_range_index_inert ⟨1, 1, 1, 1, 1, 90, 90, 90, "cubic"⟩
    [⟨"Si", "T1", 1, 2, 3, 4⟩] [] [0] 5 "MFI" (fun _ => none) "2026-10-11"
    (Or.inr (by decide))

/-- C10: the writer never reads the global `Tatoms`: the document is
unchanged under any change of the `Tatoms` field, and an `Als` entry at
least the actual count of Si-typed atoms (in particular one in the gap
below an overstated `Tatoms`) never matches and is inert. -/
theorem c10_tatoms_never_read (na t1 t2 : Int) (ca cb cc cal cbe cga : ℚ)
    (cset : String) (list : List Atom) (als : List Int) (v : Int)
    (name_zeo : String) (env : String → Option String) (date : String)
    (hv : (siCount list : Int) ≤ v) :
    printDoc ⟨na, t1, ca, cb, cc, cal, cbe, cga, cset⟩ list (v :: als)
        name_zeo env date =
      printDoc ⟨na, t2, ca, cb, cc, cal, cbe, cga, cset⟩ list als
        name_zeo env date := by
  unfold printDoc
  congr 1
  show (atomRows (list.take (Int.toNat na)) (v :: als)).map (rowLine foutState) =
    (atomRows (list.take (Int.toNat na)) als).map (rowLine foutState)
  congr 1
  apply atomRows_congr
  intro t ht0 htl
  have hle : (siCount (list.take (Int.toNat na)) : Int) ≤ (siCount list : Int) := by
    exact_mod_cast siCount_take_le list (Int.toNat na)
  have hne : (t == v) = false := by
    rw [beq_eq_false_iff_ne]
    omega
  rw [scanAls_cons, hne, Bool.false_or]

/-- Witness for C10: Tatoms 1 against Tatoms 7, gap index 3. -/
theorem c10_tatoms_never_read_witness :
    printDoc ⟨1, 1, 1, 1, 1, 90, 90, 90, "cubic"⟩ [⟨"Si", "T1", 1, 2, 3, 4⟩]
        (3 :: [0]) "MFI" (fun _ => none) "2026-10-11" =
      printDoc ⟨1, 7, 1, 1, 1, 90, 90, 90, "cubic"⟩ [⟨"Si", "T1", 1, 2, 3, 4⟩]
        [0] "MFI" (fun _ => none) "2026-10-11" :=
  c10_tatoms_never_read 1 1 7 1 1 1 90 90 90 "cubic"
    [⟨"Si", "T1", 1, 2, 3, 4⟩] [0] 3 "MFI" (fun _ => none) "2026-10-11"
    (by decide)

theorem scanAls_nat_zero_two (n : Nat) :
    scanAls [0, 2] ((n : Nat) : Int) = (decide (n = 0) || decide (n = 2)) := by
  rw [scanAls_cons, scanAls_cons]
  have e0 : (((n : Nat) : Int) == 0) = decide (n = 0) := by
    by_cases h : n = 0 <;> simp [h]
  have e2 : (((n : Nat) : Int) == 2) = decide (n = 2) := by
    by_cases h : n = 2
    · simp [h]
    · have hc : ((n : Nat) : Int) ≠ 2 := by exact_mod_cast h
      simp [h, hc]
  rw [e0, e2]
  simp [scanAls]

/-- C1: with `Als = [0, 2]`, the Si-typed atom of rank 0 (the first Si atom in
appearance order) is emitted with label `Al1` and type symbol `Al`, the one
of rank 2 (the third) with label `Al2`, and every other atom's row keeps its
own `at`/`id` fields. -/
theorem c1_als_zero_two_relabel (l : List Atom) (i : Nat) (x : Atom)
    (h3 : 3 ≤ siCount l) (hx : l.get? i = some x) :
    (atomRows l [0, 2]).get? i = some (
      if x.id == "Si" then
        if siRank l i = 0 then Row.al 1 x.x x.y x.z x.q
        else if siRank l i = 2 then Row.al 2 x.x x.y x.z x.q
        else Row.plain x.at_ x.id x.x x.y x.z x.q
      else Row.plain x.at_ x.id x.x x.y x.z x.q) := by
  rw [atomRows_get? l [0, 2] i x hx]
  congr 1
  unfold rowAt siRank
  by_cases hsi : (x.id == "Si") = true
  · rw [if_pos hsi, if_pos hsi]
    have he : (-1 : Int) + 1 + ((siCount (l.take i) : Nat) : Int) =
        ((siCount (l.take i) : Nat) : Int) := by
      push_cast
      ring
    rw [he, subsIn_range]
    have hfil : (fun k : Nat => scanAls [0, 2] ((-1) + 1 + (k : Int))) =
        (fun k : Nat => scanAls [0, 2] ((k : Nat) : Int)) := by
      funext k
      congr 1
      push_cast
      ring
    rw [hfil]
    generalize siCount (l.take i) = s
    by_cases h0 : s = 0
    · subst h0
      rw [if_pos (show scanAls [0, 2] (((0 : Nat) : Int)) = true from rfl)]
      simp
    · by_cases h2 : s = 2
      · subst h2
        rw [if_pos (show scanAls [0, 2] (((2 : Nat) : Int)) = true from rfl)]
        have hflt : (List.filter (fun k : Nat => scanAls [0, 2] ((k : Nat) : Int))
            (List.range 2)).length = 1 := rfl
        rw [hflt]
        simp
      · rw [scanAls_nat_zero_two]
        simp [h0, h2]
  · rw [if_neg hsi, if_neg hsi]

/-- Witness for C1: four atoms, three of them Si, Als = [0, 2]; checked at
the first atom (Si rank 0, emitted as Al1). -/
theorem c1_als_zero_two_relabel_witness :
    3 ≤ siCount [⟨"Si", "T1", 1, 2, 3, 4⟩, ⟨"O", "O1", 5, 6, 7, 8⟩,
        ⟨"Si", "T2", 1, 2, 3, 4⟩, ⟨"Si", "T3", 1, 2, 3, 4⟩] ∧
      (atomRows [⟨"Si", "T1", 1, 2, 3, 4⟩, ⟨"O", "O1", 5, 6, 7, 8⟩,
          ⟨"Si", "T2", 1, 2, 3, 4⟩, ⟨"Si", "T3", 1, 2, 3, 4⟩] [0, 2]).get? 0 =
        some (Row.al 1 1 2 3 4) :=
  have hl : ([⟨"Si", "T1", 1, 2, 3, 4⟩, ⟨"O", "O1", 5, 6, 7, 8⟩,
      ⟨"Si", "T2", 1, 2, 3, 4⟩, ⟨"Si", "T3", 1, 2, 3, 4⟩] : List Atom).get? 0 =
      some ⟨"Si", "T1", 1, 2, 3, 4⟩ := rfl
  ⟨by decide,
    by
      rw [c1_als_zero_two_relabel _ 0 _ (by decide) hl]
      rfl⟩

theorem headerLines_num_fmt (g : Globals) (nz u d : String) (line : Line)
    (hl : line ∈ headerLines g nz u d) (c : Cell) (hc : c ∈ line)
    (q : ℚ) (f : FmtSt) (w : Nat) (hq : c = Cell.num q f w) : f = foutState := by
  subst hq
  unfold headerLines at hl
  fin_cases hl <;> simp_all

theorem rowLine_num_fmt (st : FmtSt) (r : Row) (c : Cell) (hc : c ∈ rowLine st r)
    (q : ℚ) (f : FmtSt) (w : Nat) (hq : c = Cell.num q f w) : f = st := by
  subst hq
  cases r <;> simp [rowLine] at hc <;> tauto

/-- C8: every floating-point value in the document is inserted while the
file stream's float format is fixed-point with precision 3 (the state set
once by `fout << setprecision(3) << fixed`, which is local to `fout`). -/
theorem c8_numeric_cells_fixed_three (g : Globals) (list : List Atom)
    (als : List Int) (name_zeo : String) (env : String → Option String)
    (date : String) (line : Line) (c : Cell) (q : ℚ) (f : FmtSt) (w : Nat)
    (hl : line ∈ printDoc g list als name_zeo env date) (hc : c ∈ line)
    (hq : c = Cell.num q f w) :
    f.ff = FloatField.fixed ∧ f.prec = 3 := by
  have hf : f = foutState := by
    unfold printDoc at hl
    rcases List.mem_append.mp hl with h | h
    · exact headerLines_num_fmt g name_zeo (lookupUser env) date line h c hc q f w hq
    · obtain ⟨r, _, rfl⟩ := List.mem_map.mp h
      exact rowLine_num_fmt foutState r c hc q f w hq
  subst hf
  exact ⟨rfl, rfl⟩

/-- Witness for C8 at the `_cell_length_a` line of a concrete document. -/
theorem c8_numeric_cells_fixed_three_witness :
    foutState.ff = FloatField.fixed ∧ foutState.prec = 3 :=
  c8_numeric_cells_fixed_three ⟨0, 0, 1, 1, 1, 90, 90, 90, "cubic"⟩ [] [] "MFI"
    (fun _ => none) "2026-10-11"
    [Cell.str "_cell_length_a    " 0, Cell.num 1 foutState 0]
    (Cell.num 1 foutState 0) 1 foutState 0
    (by simp [printDoc, headerLines]) (by simp) rfl
